import Mathlib

/-!
Verification development for the trading-bot repository.

The Python sources are shallowly embedded over ℚ (Python floats are modelled
as exact rationals).  Python's `round(x, n)` (banker's rounding) is modelled
by `pyRound`; Python truthiness of optional floats by `truthy`.  Each
definition mirrors one function of the source:

* `_ema`, `_rsi`, `_macd`, `calculate_confidence`, `calculate_tp_sl`
  embed `src/bot/strategy.py`;
* `settle_trade` / `_check_paper_positions` embed the paper-settlement step of
  `src/bot/main_multi_pair.py` (`_check_paper_positions`), and
  `_check_paper_positions_single` embeds the variant of `src/bot/main.py`,
  whose body reads the name `exit_fee` that is never bound (a `NameError`,
  modelled as `Except.error`);
* `_run_paper_trade` embeds the paper-entry step of
  `src/bot/main_multi_pair.py`, and `_run_paper_trade_single` the variant of
  `src/bot/main.py`, which calls `db.insert_paper_trade` with keyword
  arguments (`atr`, `position_size`, `trailing_stop`) that are not parameters
  of that function (a `TypeError` raised after the wallet debit was committed);
* `_update_candle` embeds the candle-buffer update of both engines;
* `StrategyManager` and `SimpleEMAStrategy` embed
  `src/bot/strategy_manager.py`, `src/bot/strategy_base.py` and
  `src/bot/strategies/simple_ema.py`.
-/

/-! ## Python numeric helpers -/

/-- Python `round` to an integer: round-half-to-even (banker's rounding). -/
def pyRoundInt (x : ℚ) : ℤ :=
  let f := ⌊x⌋
  let r := x - (f : ℚ)
  if r < 1/2 then f
  else if 1/2 < r then f + 1
  else if f % 2 = 0 then f else f + 1

/-- Python `round(x, n)` on rationals. -/
def pyRound (x : ℚ) (n : ℕ) : ℚ := (pyRoundInt (x * 10 ^ n) : ℚ) / 10 ^ n

/-- Python truthiness of an optional float: `None` and `0.0` are falsy. -/
def truthy (x : Option ℚ) : Bool :=
  match x with
  | none => false
  | some v => decide (v ≠ 0)

theorem pyRoundInt_nonneg {x : ℚ} (hx : 0 ≤ x) : 0 ≤ pyRoundInt x := by
  have hf : (0 : ℤ) ≤ ⌊x⌋ := Int.floor_nonneg.mpr hx
  simp only [pyRoundInt]
  split
  · exact hf
  · split
    · omega
    · split
      · exact hf
      · omega

theorem pyRoundInt_le {x : ℚ} {n : ℤ} (hx : x ≤ (n : ℚ)) : pyRoundInt x ≤ n := by
  have hf : ⌊x⌋ ≤ n := Int.floor_le_floor hx |>.trans_eq (Int.floor_intCast n)
  simp only [pyRoundInt]
  split
  · exact hf
  · rename_i h1
    push_neg at h1
    have hlt : (⌊x⌋ : ℚ) < x := by
      have : (0 : ℚ) < 1/2 := by norm_num
      nlinarith [Int.floor_le x]
    have : ⌊x⌋ < n := by
      have := hlt.trans_le hx
      exact_mod_cast this
    split
    · omega
    · split
      · exact hf
      · omega

theorem pyRound_nonneg {x : ℚ} {n : ℕ} (hx : 0 ≤ x) : 0 ≤ pyRound x n := by
  unfold pyRound
  have h1 : (0 : ℤ) ≤ pyRoundInt (x * 10 ^ n) :=
    pyRoundInt_nonneg (by positivity)
  have h2 : (0 : ℚ) ≤ (pyRoundInt (x * 10 ^ n) : ℚ) := by exact_mod_cast h1
  positivity

theorem pyRound_le {x : ℚ} {n : ℕ} {m : ℤ} (hx : x ≤ (m : ℚ)) : pyRound x n ≤ (m : ℚ) := by
  unfold pyRound
  have hpow : (0 : ℚ) < 10 ^ n := by positivity
  have h1 : pyRoundInt (x * 10 ^ n) ≤ m * 10 ^ n := by
    apply pyRoundInt_le
    push_cast
    exact mul_le_mul_of_nonneg_right hx (le_of_lt hpow)
  rw [div_le_iff₀ hpow]
  calc (pyRoundInt (x * 10 ^ n) : ℚ) ≤ ((m * 10 ^ n : ℤ) : ℚ) := by exact_mod_cast h1
    _ = (m : ℚ) * 10 ^ n := by push_cast; ring

theorem pyRound_intCast (m : ℤ) (n : ℕ) : pyRound (m : ℚ) n = (m : ℚ) := by
  unfold pyRound pyRoundInt
  have hfl : ⌊(m : ℚ) * 10 ^ n⌋ = m * 10 ^ n := by
    rw [show ((m : ℚ) * 10 ^ n) = ((m * 10 ^ n : ℤ) : ℚ) by push_cast; ring, Int.floor_intCast]
  have hpow : (0 : ℚ) < 10 ^ n := by positivity
  simp only [hfl]
  rw [if_pos]
  · push_cast
    field_simp
  · push_cast
    norm_num

/-! ## Indicator library: `src/bot/strategy.py` -/

/-!
Configuration constants of the `CONFIG` dict at the top of
`src/bot/strategy.py` (the values the claims are about).
-/

namespace StrategyCfg

def tp_pct : ℚ := 15/1000

def sl_pct : ℚ := 8/1000

def rsi_overbought : ℚ := 75

def rsi_oversold : ℚ := 25

def macd_fast : ℕ := 12

def macd_slow : ℕ := 26

def macd_signal : ℕ := 9

def min_volume_ratio : ℚ := 8/10

end StrategyCfg

/-- The EMA recurrence `ema.append(v * k + ema[-1] * (1 - k))` of `_ema`. -/
def emaRec (k : ℚ) : ℚ → List ℚ → List ℚ
  | _, [] => []
  | prev, v :: vs =>
    let e := v * k + prev * (1 - k)
    e :: emaRec k e vs

/-- `_ema(values, period)` of `src/bot/strategy.py`: empty when there are fewer
than `period` values, else seeded with the simple average of the first
`period` values and extended by the smoothing recurrence with
`k = 2/(period+1)`. -/
def _ema (values : List ℚ) (period : ℕ) : List ℚ :=
  if values.length < period then []
  else
    let k : ℚ := 2 / ((period : ℚ) + 1)
    let seed : ℚ := (values.take period).sum / (period : ℚ)
    seed :: emaRec k seed (values.drop period)

theorem emaRec_length (k : ℚ) (prev : ℚ) (l : List ℚ) :
    (emaRec k prev l).length = l.length := by
  induction l generalizing prev with
  | nil => rfl
  | cons v vs ih => simp [emaRec, ih]

theorem _ema_length (values : List ℚ) (period : ℕ) (h : period ≤ values.length) :
    (_ema values period).length = values.length - period + 1 := by
  unfold _ema
  rw [if_neg (by omega)]
  simp only [List.length_cons, emaRec_length, List.length_drop]

/-- The consecutive deltas `closes[i] - closes[i-1]` of `_rsi`. -/
def rsiDeltas (closes : List ℚ) : List ℚ :=
  List.zipWith (fun a b => a - b) closes.tail closes

/-- The trailing window `deltas[-period:]` of `_rsi`. -/
def rsiLastDeltas (closes : List ℚ) (period : ℕ) : List ℚ :=
  let deltas := rsiDeltas closes
  deltas.drop (deltas.length - period)

/-- Average gain `sum(gains) / period` of `_rsi`. -/
def rsiAvgGain (closes : List ℚ) (period : ℕ) : ℚ :=
  ((rsiLastDeltas closes period).map (fun d => if 0 < d then d else 0)).sum / (period : ℚ)

/-- Average loss `sum(losses) / period` of `_rsi`. -/
def rsiAvgLoss (closes : List ℚ) (period : ℕ) : ℚ :=
  ((rsiLastDeltas closes period).map (fun d => if d < 0 then -d else 0)).sum / (period : ℚ)

/-- `_rsi(closes, period)` of `src/bot/strategy.py`. -/
def _rsi (closes : List ℚ) (period : ℕ) : ℚ :=
  if closes.length < period + 1 then 50
  else
    let avg_gain := rsiAvgGain closes period
    let avg_loss := rsiAvgLoss closes period
    if avg_loss = 0 then 100
    else
      let rs := avg_gain / avg_loss
      pyRound (100 - 100 / (1 + rs)) 2

/-- Result struct of `_macd`. -/
structure MacdOut where
  macd : ℚ
  signal : ℚ
  histogram : ℚ
deriving DecidableEq, Repr

/-- The list comprehension
`[ema_fast[i] - ema_slow[i] for i in range(len(ema_slow))]` of `_macd`:
indexing both EMA series from the head over the slow series' length. -/
def macd_line (closes : List ℚ) : List ℚ :=
  let ema_fast := _ema closes StrategyCfg.macd_fast
  let ema_slow := _ema closes StrategyCfg.macd_slow
  (List.range ema_slow.length).map (fun i => ema_fast.getD i 0 - ema_slow.getD i 0)

/-- `_macd(closes)` of `src/bot/strategy.py`, with the `CONFIG` periods
fast = 12, slow = 26, signal = 9. -/
def _macd (closes : List ℚ) : MacdOut :=
  if closes.length < StrategyCfg.macd_slow + StrategyCfg.macd_signal then ⟨0, 0, 0⟩
  else
    let ema_fast := _ema closes StrategyCfg.macd_fast
    let ema_slow := _ema closes StrategyCfg.macd_slow
    let min_len := min ema_fast.length ema_slow.length
    if min_len = 0 then ⟨0, 0, 0⟩
    else
      let line := macd_line closes
      let signal_line := _ema line StrategyCfg.macd_signal
      if signal_line.isEmpty then ⟨line.getLastD 0, 0, 0⟩
      else
        let current_macd := line.getLastD 0
        let current_signal := signal_line.getLastD 0
        ⟨pyRound current_macd 4, pyRound current_signal 4,
         pyRound (current_macd - current_signal) 4⟩

/-! ## Confidence scorer: `calculate_confidence` of `src/bot/strategy.py` -/

/-- Candidate trade direction. -/
inductive PositionType where
  | LONG
  | SHORT
deriving DecidableEq, Repr

/-- The indicator dictionary as read by `calculate_confidence`
(`ind.get(...)` defaults are applied at the use sites). -/
structure Ind where
  ema_fast : Option ℚ
  ema_slow : Option ℚ
  ema_fast_prev : Option ℚ
  ema_slow_prev : Option ℚ
  rsi : Option ℚ
  macd : Option ℚ
  macd_signal : Option ℚ
  macd_histogram : Option ℚ
  volume_ratio : Option ℚ
  last_close : Option ℚ
deriving DecidableEq, Repr

/-- Sub-score 1 of `calculate_confidence`: EMA crossover and trend (30 points,
plus a 5-point fresh-crossover bonus gated by Python truthiness of the
previous EMA values). -/
def emaScore (ind : Ind) (pt : PositionType) : ℚ :=
  let ef := ind.ema_fast.getD 0
  let es := ind.ema_slow.getD 0
  match pt with
  | .LONG =>
    if es < ef then
      30 + (if truthy ind.ema_fast_prev && truthy ind.ema_slow_prev &&
               decide (ind.ema_fast_prev.getD 0 ≤ ind.ema_slow_prev.getD 0)
            then 5 else 0)
    else 0
  | .SHORT =>
    if ef < es then
      30 + (if truthy ind.ema_fast_prev && truthy ind.ema_slow_prev &&
               decide (ind.ema_slow_prev.getD 0 ≤ ind.ema_fast_prev.getD 0)
            then 5 else 0)
    else 0

/-- Sub-score 2 of `calculate_confidence`: MACD confirmation (25 points, half
weight when only the MACD/signal ordering matches). -/
def macdScore (ind : Ind) (pt : PositionType) : ℚ :=
  let m := ind.macd.getD 0
  let s := ind.macd_signal.getD 0
  let h := ind.macd_histogram.getD 0
  match pt with
  | .LONG => if s < m ∧ 0 < h then 25 else if s < m then 25/2 else 0
  | .SHORT => if m < s ∧ h < 0 then 25 else if m < s then 25/2 else 0

/-- Sub-score 3 of `calculate_confidence`: RSI alignment (20 points, relaxed
thresholds 25/75 from `CONFIG`). -/
def rsiScore (ind : Ind) (pt : PositionType) : ℚ :=
  let rsi := ind.rsi.getD 50
  match pt with
  | .LONG =>
    if rsi < StrategyCfg.rsi_oversold then 20
    else if rsi < 50 then 20 * (50 - rsi) / 50
    else max 0 (10 * (80 - rsi) / 30)
  | .SHORT =>
    if StrategyCfg.rsi_overbought < rsi then 20
    else if 50 < rsi then 20 * (rsi - 50) / 50
    else max 0 (10 * (rsi - 20) / 30)

/-- Sub-score 4 of `calculate_confidence`: volume confirmation (nominal weight
15, with `CONFIG["min_volume_ratio"] = 0.8`). -/
def volumeScore (volume_ratio : ℚ) : ℚ :=
  if 1 ≤ volume_ratio then 15
  else if StrategyCfg.min_volume_ratio ≤ volume_ratio then
    15 * (volume_ratio / StrategyCfg.min_volume_ratio)
  else 0

/-- Sub-score 5 of `calculate_confidence`: trend strength, EMA separation
normalized against 2% of the last close (10 points). -/
def trendScore (ind : Ind) : ℚ :=
  let ef := ind.ema_fast.getD 0
  let es := ind.ema_slow.getD 0
  let ema_separation := if truthy ind.ema_slow then |es - ef| else 1/100
  if 0 < ema_separation ∧ truthy ind.last_close then
    let last_close := ind.last_close.getD 0
    10 * min 1 (ema_separation / (last_close * (2/100)))
  else 0

/-- `calculate_confidence(ind, position_type)` of `src/bot/strategy.py`:
short-circuits to `0.0` when the current fast or slow EMA is falsy, otherwise
sums the five sub-scores, rounds to 1 decimal and clamps at `100.0`. -/
def calculate_confidence (ind : Ind) (pt : PositionType) : ℚ :=
  if ¬ truthy ind.ema_fast ∨ ¬ truthy ind.ema_slow then 0
  else
    min 100 (pyRound (emaScore ind pt + macdScore ind pt + rsiScore ind pt
      + volumeScore (ind.volume_ratio.getD 0) + trendScore ind) 1)

/-- `calculate_tp_sl(entry_price, position_type)` of `src/bot/strategy.py`
with `CONFIG` percentages `tp_pct = 0.015`, `sl_pct = 0.008`. -/
def calculate_tp_sl (entry_price : ℚ) (position_type : PositionType) : ℚ × ℚ :=
  match position_type with
  | .LONG =>
    (pyRound (entry_price * (1 + StrategyCfg.tp_pct)) 4,
     pyRound (entry_price * (1 - StrategyCfg.sl_pct)) 4)
  | .SHORT =>
    (pyRound (entry_price * (1 - StrategyCfg.tp_pct)) 4,
     pyRound (entry_price * (1 + StrategyCfg.sl_pct)) 4)

/-! ## Candle and paper-trade data model -/

/-- A candle as built in `_update_candle` of both engines (`main.py` and
`main_multi_pair.py`).  Python's `open` key is `open_` here. -/
structure Candle where
  open_ : ℚ
  high : ℚ
  low : ℚ
  close : ℚ
  volume : ℚ
  timestamp : ℤ
  is_closed : Bool
deriving DecidableEq, Repr

/-- An open paper position as stored by `db.insert_paper_trade` and read back
by `_check_paper_positions` (the claim-relevant fields). -/
structure PaperTrade where
  pair : String
  side : String
  entry_price : ℚ
  quantity : ℚ
  leverage : ℤ
  tp_price : Option ℚ
  sl_price : Option ℚ
  fee_paid : ℚ
  position_id : String
deriving DecidableEq, Repr

/-- `TAKER_FEE_RATE = 0.0005` of `main.py` and `main_multi_pair.py`. -/
def TAKER_FEE_RATE : ℚ := 5/10000

/-- `_calc_pnl(side, entry_price, exit_price, quantity, leverage)` of
`main.py` and `main_multi_pair.py`. -/
def _calc_pnl (side : String) (entry_price exit_price quantity : ℚ) (leverage : ℤ) : ℚ :=
  if side = "buy" then (exit_price - entry_price) * quantity * (leverage : ℚ)
  else (entry_price - exit_price) * quantity * (leverage : ℚ)

/-- The take-profit hit test of `_check_paper_positions`:
`high >= tp` for a long (`side == "buy"`), `low <= tp` for a short. -/
def hit_tp (side : String) (tp high low : ℚ) : Bool :=
  if side = "buy" then decide (tp ≤ high) else decide (low ≤ tp)

/-- The stop-loss hit test of `_check_paper_positions`:
`low <= sl` for a long (`side == "buy"`), `high >= sl` for a short. -/
def hit_sl (side : String) (sl high low : ℚ) : Bool :=
  if side = "buy" then decide (low ≤ sl) else decide (sl ≤ high)

/-- The closed-trade record emitted through `db.close_paper_trade` and the
wallet credit: exit price, net pnl and total fee. -/
structure CloseRecord where
  position_id : String
  exit_price : ℚ
  pnl : ℚ
  fee : ℚ
deriving DecidableEq, Repr

/-- The per-position body of the settlement loop of
`main_multi_pair.py::_check_paper_positions` (lines 227-263): skip when
`tp_price`/`sl_price` is missing or neither level is hit; otherwise close at
`sl if hit_sl else tp`, with
`net_pnl = raw_pnl - entry_fee - exit_fee` and
`exit_fee = exit_price * quantity * TAKER_FEE_RATE`. -/
def settle_trade (t : PaperTrade) (high low : ℚ) : Option CloseRecord :=
  match t.tp_price, t.sl_price with
  | some tp, some sl =>
    let htp := hit_tp t.side tp high low
    let hsl := hit_sl t.side sl high low
    if htp = false ∧ hsl = false then none
    else
      let exit_price := if hsl then sl else tp
      let entry_fee := t.fee_paid
      let exit_fee := exit_price * t.quantity * TAKER_FEE_RATE
      let raw_pnl := _calc_pnl t.side t.entry_price exit_price t.quantity t.leverage
      some ⟨t.position_id, exit_price, raw_pnl - entry_fee - exit_fee, entry_fee + exit_fee⟩
  | _, _ => none

/-- `_check_paper_positions` of `main_multi_pair.py`: settles every open
position of the pair against the candle's `(high, low)` and writes the wallet
balance credited with the accumulated net pnl.  Returns the new stored wallet
value and the emitted closed-trade records. -/
def _check_paper_positions (mode : String) (open_trades : List PaperTrade)
    (candle : Candle) (wallet : Option ℚ) : Option ℚ × List CloseRecord :=
  if mode ≠ "PAPER" then (wallet, [])
  else if open_trades.isEmpty then (wallet, [])
  else
    let closed := open_trades.filterMap (fun t => settle_trade t candle.high candle.low)
    (some (wallet.getD 0 + (closed.map (fun r => r.pnl)).sum), closed)

/-- The hit test of `main.py::_check_paper_positions` reaching the line
`net_pnl = raw_pnl - entry_fee - exit_fee` (line 188), where the name
`exit_fee` was never assigned. -/
def settle_hit (t : PaperTrade) (high low : ℚ) : Bool :=
  match t.tp_price, t.sl_price with
  | some tp, some sl => hit_tp t.side tp high low || hit_sl t.side sl high low
  | _, _ => false

/-- `_check_paper_positions` of `main.py` (single-pair engine): identical to
the multi-pair variant except that its body uses `exit_fee` without ever
assigning it, so the first position hit by the candle raises `NameError`; the
exception aborts the function before `db.close_paper_trade` and before the
final `db.set_paper_wallet_balance`, leaving the stored state unchanged. -/
def _check_paper_positions_single (mode : String) (open_trades : List PaperTrade)
    (candle : Candle) (wallet : Option ℚ) : Except String (Option ℚ × List CloseRecord) :=
  if mode ≠ "PAPER" then .ok (wallet, [])
  else if open_trades.isEmpty then .ok (wallet, [])
  else if open_trades.any (fun t => settle_hit t candle.high candle.low) then
    .error "NameError: name exit_fee is not defined"
  else .ok (some (wallet.getD 0), [])

/-- Outcome of a paper-entry attempt: the stored wallet value, the open
position set, whether a warning was reported, and the uncaught exception (if
any) raised out of the function. -/
structure OpenOutcome where
  wallet : Option ℚ
  open_trades : List PaperTrade
  warned : Bool
  raised : Option String
deriving DecidableEq, Repr

/-- `_run_paper_trade` of `main_multi_pair.py` (lines 358-397), taken after
trade sizing and TP/SL calculation: reject with a warning when the wallet is
missing or empty, or when `entry_fee = current_price * quantity *
TAKER_FEE_RATE` exceeds the balance; otherwise debit exactly the fee and
insert the new position carrying the fee as `fee_paid`. -/
def _run_paper_trade (pair : String) (current_price : ℚ) (signal : String)
    (quantity : ℚ) (leverage : ℤ) (tp_price sl_price : ℚ) (position_id : String)
    (wallet : Option ℚ) (open_trades : List PaperTrade) : OpenOutcome :=
  let side := if signal = "BUY" then "buy" else "sell"
  match wallet with
  | none => ⟨none, open_trades, true, none⟩
  | some bal =>
    if bal ≤ 0 then ⟨some bal, open_trades, true, none⟩
    else
      let entry_fee := current_price * quantity * TAKER_FEE_RATE
      if bal < entry_fee then ⟨some bal, open_trades, true, none⟩
      else
        ⟨some (bal - entry_fee),
         open_trades ++ [⟨pair, side, current_price, quantity, leverage,
           some tp_price, some sl_price, entry_fee, position_id⟩],
         false, none⟩

/-- `_run_paper_trade` of `main.py` (lines 312-357): same guards, but after
`db.set_paper_wallet_balance(wallet_balance - entry_fee)` it calls
`db.insert_paper_trade(..., atr=..., position_size=..., trailing_stop=...)`
with keyword arguments that are not parameters of
`db.insert_paper_trade` (`src/bot/db.py` lines 338-339), so the insert raises
`TypeError`: the fee debit is already committed while no position is
recorded. -/
def _run_paper_trade_single (pair : String) (current_price : ℚ) (signal : String)
    (quantity : ℚ) (leverage : ℤ) (tp_price sl_price : ℚ) (position_id : String)
    (wallet : Option ℚ) (open_trades : List PaperTrade) : OpenOutcome :=
  match wallet with
  | none => ⟨none, open_trades, true, none⟩
  | some bal =>
    if bal ≤ 0 then ⟨some bal, open_trades, true, none⟩
    else
      let entry_fee := current_price * quantity * TAKER_FEE_RATE
      if bal < entry_fee then ⟨some bal, open_trades, true, none⟩
      else
        ⟨some (bal - entry_fee), open_trades, false,
         some "TypeError: insert_paper_trade got unexpected keyword arguments"⟩

/-! ## Candle buffer: `_update_candle` of both engines -/

/-- `BUFFER_SIZE = 200`. -/
def BUFFER_SIZE : ℕ := 200

/-- The test `candle_buffer and candle_buffer[-1]["timestamp"] == candle["timestamp"]`
of `_update_candle`. -/
def lastTimestampMatches (buf : List Candle) (c : Candle) : Bool :=
  match buf.getLast? with
  | some last => decide (last.timestamp = c.timestamp)
  | none => false

/-- `_update_candle` buffer update of `main.py` (lines 92-97) and
`main_multi_pair.py` (lines 153-158): overwrite the last candle in place when
the incoming timestamp matches it, else append and evict the oldest candle
once the buffer exceeds `BUFFER_SIZE`. -/
def _update_candle (buf : List Candle) (c : Candle) : List Candle :=
  if lastTimestampMatches buf c then buf.dropLast ++ [c]
  else
    let b := buf ++ [c]
    if BUFFER_SIZE < b.length then b.tail else b

/-! ## Simple EMA strategy: `src/bot/strategies/simple_ema.py` -/

/-- The result dict of a strategy `evaluate(candles, return_confidence=True)`. -/
structure SignalResult where
  signal : Option PositionType
  confidence : ℚ
  auto_execute : Bool
deriving DecidableEq, Repr

/-- `l[-1] if l else None`. -/
def lastOpt (l : List ℚ) : Option ℚ := l.getLast?

/-- `l[-2] if len(l) >= 2 else None`. -/
def prevOpt (l : List ℚ) : Option ℚ :=
  if 2 ≤ l.length then some (l.getD (l.length - 2) 0) else none

namespace SimpleEMAStrategy

def ema_fast_period : ℕ := 9

def ema_slow_period : ℕ := 21

def rsi_period : ℕ := 14

def rsi_overbought : ℚ := 70

def rsi_oversold : ℚ := 30

def confidence_threshold : ℚ := 80

def auto_execute_flag : Bool := true

def tp_pct : ℚ := 2/100

def sl_pct : ℚ := 1/100

/-- The indicator dict of `SimpleEMAStrategy.compute_indicators`. -/
structure SInd where
  ema_fast : Option ℚ
  ema_slow : Option ℚ
  ema_fast_prev : Option ℚ
  ema_slow_prev : Option ℚ
  rsi : ℚ
  last_close : Option ℚ
deriving DecidableEq, Repr

/-- `SimpleEMAStrategy.compute_indicators` (its private `_ema`/`_rsi` method
bodies are line-for-line the module-level `_ema`/`_rsi` of
`src/bot/strategy.py`, so the same embeddings are reused). -/
def compute_indicators (candles : List Candle) : SInd :=
  let closes := candles.map (fun c => c.close)
  let f := _ema closes ema_fast_period
  let s := _ema closes ema_slow_period
  ⟨lastOpt f, lastOpt s, prevOpt f, prevOpt s, _rsi closes rsi_period, lastOpt closes⟩

/-- `SimpleEMAStrategy.calculate_confidence`: 60/20 EMA split plus a 40-point
RSI band, rounded to 1 decimal, clamped at 100. -/
def calculate_confidence (ind : SInd) (pt : PositionType) : ℚ :=
  if ¬ truthy ind.ema_fast ∨ ¬ truthy ind.ema_slow then 0
  else
    let ef := ind.ema_fast.getD 0
    let es := ind.ema_slow.getD 0
    let emaPart : ℚ :=
      match pt with
      | .LONG =>
        if es < ef then
          60 + (if truthy ind.ema_fast_prev && truthy ind.ema_slow_prev &&
                   decide (ind.ema_fast_prev.getD 0 ≤ ind.ema_slow_prev.getD 0)
                then 20 else 0)
        else 0
      | .SHORT =>
        if ef < es then
          60 + (if truthy ind.ema_fast_prev && truthy ind.ema_slow_prev &&
                   decide (ind.ema_slow_prev.getD 0 ≤ ind.ema_fast_prev.getD 0)
                then 20 else 0)
        else 0
    let rsiPart : ℚ :=
      match pt with
      | .LONG =>
        if ind.rsi < rsi_oversold then 40
        else if ind.rsi < rsi_overbought then 40 * (rsi_overbought - ind.rsi) / rsi_overbought
        else 0
      | .SHORT =>
        if rsi_overbought < ind.rsi then 40
        else if rsi_oversold < ind.rsi then 40 * (ind.rsi - rsi_oversold) / (100 - rsi_oversold)
        else 0
    min 100 (pyRound (emaPart + rsiPart) 1)

/-- `SimpleEMAStrategy.evaluate(candles, return_confidence=True)`. -/
def evaluate (candles : List Candle) : SignalResult :=
  if candles.length < ema_slow_period + 5 then ⟨none, 0, false⟩
  else
    let ind := compute_indicators candles
    if ind.ema_fast = none ∨ ind.ema_slow = none ∨
       ind.ema_fast_prev = none ∨ ind.ema_slow_prev = none then ⟨none, 0, false⟩
    else
      let ef := ind.ema_fast.getD 0
      let es := ind.ema_slow.getD 0
      let pf := ind.ema_fast_prev.getD 0
      let ps := ind.ema_slow_prev.getD 0
      let crossed_up := pf ≤ ps ∧ es < ef
      let crossed_down := ps ≤ pf ∧ ef < es
      if crossed_up ∧ ind.rsi < rsi_overbought then
        let conf := calculate_confidence ind .LONG
        ⟨some .LONG, conf, auto_execute_flag && decide (confidence_threshold ≤ conf)⟩
      else if crossed_down ∧ rsi_oversold < ind.rsi then
        let conf := calculate_confidence ind .SHORT
        ⟨some .SHORT, conf, auto_execute_flag && decide (confidence_threshold ≤ conf)⟩
      else ⟨none, 0, false⟩

/-- `SimpleEMAStrategy.calculate_tp_sl` with its `CONFIG` percentages
`tp_pct = 0.02`, `sl_pct = 0.01`. -/
def calculate_tp_sl (entry_price : ℚ) (position_type : PositionType) : ℚ × ℚ :=
  match position_type with
  | .LONG =>
    (pyRound (entry_price * (1 + tp_pct)) 4, pyRound (entry_price * (1 - sl_pct)) 4)
  | .SHORT =>
    (pyRound (entry_price * (1 - tp_pct)) 4, pyRound (entry_price * (1 + sl_pct)) 4)

end SimpleEMAStrategy

/-! ## Strategy registry: `src/bot/strategy_manager.py` -/

/-- A constructed strategy instance as held by the manager: the uniform
contract (`get_name`, `evaluate`, `calculate_tp_sl`). -/
structure Strategy where
  name : String
  evaluate : List Candle → SignalResult
  calculate_tp_sl : ℚ → PositionType → ℚ × ℚ

/-- The `SimpleEMAStrategy` instance. -/
def simple_ema : Strategy :=
  ⟨"Simple EMA", SimpleEMAStrategy.evaluate, SimpleEMAStrategy.calculate_tp_sl⟩

/-- The state of a `StrategyManager`: registered strategies keyed by
normalized name, plus the active strategy and its name. -/
structure StrategyManager where
  strategies : List (String × Strategy)
  active_strategy : Option Strategy
  active_strategy_name : Option String

/-- `StrategyManager.set_active_strategy(name)`: `False` (with an error log)
and no state change when `name` is unregistered, else construct the strategy
and replace both the active pointer and the active name. -/
def StrategyManager.set_active_strategy (m : StrategyManager) (name : String) :
    Bool × StrategyManager :=
  match m.strategies.lookup name with
  | none => (false, m)
  | some s => (true, { m with active_strategy := some s, active_strategy_name := some name })

/-- `StrategyManager.evaluate(candles)`: `None` (with a warning log) when no
active strategy is set, else delegate to the active strategy. -/
def StrategyManager.evaluate (m : StrategyManager) (candles : List Candle) :
    Option SignalResult :=
  match m.active_strategy with
  | none => none
  | some s => some (s.evaluate candles)

/-- `StrategyManager.calculate_tp_sl(entry_price, position_type)`:
`(0.0, 0.0)` (with a warning log) when no active strategy is set, else
delegate to the active strategy. -/
def StrategyManager.calculate_tp_sl (m : StrategyManager) (entry_price : ℚ)
    (position_type : PositionType) : ℚ × ℚ :=
  match m.active_strategy with
  | none => (0, 0)
  | some s => s.calculate_tp_sl entry_price position_type

/-! ## Shared class-level strategy config: `src/bot/strategy_base.py` -/

/-- A Python config value (string, number or boolean). -/
inductive CVal where
  | s (v : String)
  | q (v : ℚ)
  | b (v : Bool)
deriving DecidableEq, Repr

/-- Python `d.update(u)` on dicts modelled as association lists with unique
keys: keys of `u` override the value kept at their original position in `d`,
keys new to `d` are appended in order. -/
def dictUpdate (d u : List (String × CVal)) : List (String × CVal) :=
  d.map (fun kv => match u.lookup kv.1 with | some v => (kv.1, v) | none => kv)
  ++ u.filter (fun kv => (d.lookup kv.1).isNone)

/-- The class-level `CONFIG` dictionary of `SimpleEMAStrategy`: one shared
mutable dict per strategy class (`TradingStrategy.update_config` does
`self.CONFIG.update(new_config)`, and `self.CONFIG` resolves to the class
attribute because instances never shadow it). -/
structure SimpleEMAClassState where
  CONFIG : List (String × CVal)
deriving DecidableEq, Repr

/-- `TradingStrategy.update_config(new_config)` as it acts on the shared
class state: `self.CONFIG.update(new_config)`. -/
def update_config (w : SimpleEMAClassState) (new_config : List (String × CVal)) :
    SimpleEMAClassState :=
  ⟨dictUpdate w.CONFIG new_config⟩

/-- A constructed `SimpleEMAStrategy()` instance: it stores no configuration
of its own (no instance attribute ever shadows `CONFIG`). -/
structure SimpleEMAInstance where
  mk ::
deriving DecidableEq, Repr

/-- `instance.get_config()`: `return self.CONFIG`, which resolves to the
class-level dictionary. -/
def SimpleEMAInstance.get_config (_ : SimpleEMAInstance) (w : SimpleEMAClassState) :
    List (String × CVal) := w.CONFIG

/-- Constructing a fresh instance, as `StrategyManager.set_active_strategy`
does via `self.strategies[strategy_name]()`. -/
def constructSimpleEMA (_ : SimpleEMAClassState) : SimpleEMAInstance := ⟨⟩

/-! ## Concrete fixtures used by the claims -/

/-- A long paper position: entry 100, quantity 1, leverage 1, TP 102, SL 99,
entry fee 0.05 recorded at open. -/
def posC1 : PaperTrade := ⟨"B-BTC_USDT", "buy", 100, 1, 1, some 102, some 99, 1/20, "P1"⟩

/-- A closed candle with high 103 and low 101: it hits the take-profit of
`posC1` but not its stop-loss. -/
def candleC1 : Candle := ⟨100, 103, 101, 102, 1, 1, true⟩

/-- C1.  The settlement step in `main_multi_pair.py` credits the wallet with
net pnl `(102-100)*1*1 - 0.05 - 102*1*0.0005 = 1.899` and records the closed
trade with that pnl and total fee `0.101`; the same step in `main.py`
raises `NameError` (its `exit_fee` is never assigned), so it settles nothing:
the claim is satisfied by `main_multi_pair.py` but broken by `main.py`. -/
theorem c1_settlement_netting :
    _check_paper_positions "PAPER" [posC1] candleC1 (some 1000)
      = (some (1000 + 1899/1000), [⟨"P1", 102, 1899/1000, 101/1000⟩])
    ∧ _check_paper_positions_single "PAPER" [posC1] candleC1 (some 1000)
      = .error "NameError: name exit_fee is not defined" := by
  constructor
  · norm_num [_check_paper_positions, settle_trade, hit_tp, hit_sl, _calc_pnl,
      TAKER_FEE_RATE, posC1, candleC1, List.filterMap]
  · norm_num [_check_paper_positions_single, settle_hit, hit_tp, hit_sl, posC1,
      candleC1, List.any]

/-- Support for C2: in the multi-pair engine's settlement body, whenever a
candle's range satisfies both the take-profit and the stop-loss condition of
an open position, the position is closed at the stop-loss price (with the pnl
and fee computed from that stop-loss exit), never at the take-profit price. -/
theorem settle_trade_both_hit_sl (t : PaperTrade) (tp sl high low : ℚ)
    (htp : t.tp_price = some tp) (hsl : t.sl_price = some sl)
    (h1 : hit_tp t.side tp high low = true) (h2 : hit_sl t.side sl high low = true) :
    settle_trade t high low =
      some ⟨t.position_id, sl,
        _calc_pnl t.side t.entry_price sl t.quantity t.leverage
          - t.fee_paid - sl * t.quantity * TAKER_FEE_RATE,
        t.fee_paid + sl * t.quantity * TAKER_FEE_RATE⟩ := by
  unfold settle_trade
  rw [htp, hsl]
  simp [h1, h2]

/-- A long paper position with both levels hittable: entry 100, TP 102, SL 99. -/
def posC2 : PaperTrade := ⟨"B-BTC_USDT", "buy", 100, 1, 1, some 102, some 99, 0, "P2"⟩

/-- A closed candle with high 103 and low 90: it satisfies both the
take-profit and the stop-loss condition of `posC2`. -/
def candleC2 : Candle := ⟨100, 103, 90, 95, 1, 1, true⟩

/-- C2.  At a candle hitting both levels of an open long position, the
multi-pair engine closes it at the stop-loss price 99 — never at the
take-profit price 102 — exactly as claimed (the general tie-break is
`settle_trade_both_hit_sl`); but the single-pair engine of `main.py`, the
claim's other cited source, raises `NameError` (its `exit_fee` is never
assigned) before `db.close_paper_trade`, so it closes the position at no
price at all. -/
theorem c2_tie_break_divergence :
    _check_paper_positions "PAPER" [posC2] candleC2 (some 1000)
      = (some (1000 - 2099/2000), [⟨"P2", 99, -(2099/2000), 99/2000⟩])
    ∧ _check_paper_positions_single "PAPER" [posC2] candleC2 (some 1000)
      = .error "NameError: name exit_fee is not defined" := by
  constructor
  · norm_num [_check_paper_positions, settle_trade, hit_tp, hit_sl, _calc_pnl,
      TAKER_FEE_RATE, posC2, candleC2, List.filterMap]
  · norm_num [_check_paper_positions_single, settle_hit, hit_tp, hit_sl, posC2,
      candleC2, List.any]

/-- C3.  Paper entry at price 100, quantity 1 (entry fee 0.05): with balance
1000, `main_multi_pair.py` debits exactly the fee and appends the position
carrying `fee_paid = 0.05`, while `main.py` debits the fee and then raises
`TypeError` out of `db.insert_paper_trade` (unexpected keyword arguments), so
no position is recorded; with balance 0.01 < fee both reject with a warning
and leave wallet and open set unchanged. -/
theorem c3_entry_fee_gate :
    _run_paper_trade "B-BTC_USDT" 100 "BUY" 1 5 102 99 "P3" (some 1000) []
      = ⟨some (1000 - 1/20),
         [⟨"B-BTC_USDT", "buy", 100, 1, 5, some 102, some 99, 1/20, "P3"⟩],
         false, none⟩
    ∧ _run_paper_trade_single "B-BTC_USDT" 100 "BUY" 1 5 102 99 "P3" (some 1000) []
      = ⟨some (1000 - 1/20), [], false,
         some "TypeError: insert_paper_trade got unexpected keyword arguments"⟩
    ∧ _run_paper_trade "B-BTC_USDT" 100 "BUY" 1 5 102 99 "P3" (some (1/100)) []
      = ⟨some (1/100), [], true, none⟩
    ∧ _run_paper_trade_single "B-BTC_USDT" 100 "BUY" 1 5 102 99 "P3" (some (1/100)) []
      = ⟨some (1/100), [], true, none⟩ := by
  refine ⟨?_, ?_, ?_, ?_⟩ <;>
    norm_num [_run_paper_trade, _run_paper_trade_single, TAKER_FEE_RATE]

/-- Support for C3: on any inputs the multi-pair paper entry debits exactly
the fee and appends the position when the fee is affordable, and rejects with
a warning leaving the state unchanged when it is not. -/
theorem run_paper_trade_cases (pair : String) (price : ℚ) (signal : String)
    (qty : ℚ) (lev : ℤ) (tp sl : ℚ) (pid : String) (bal : ℚ) (ts : List PaperTrade)
    (hb : 0 < bal) :
    (price * qty * TAKER_FEE_RATE ≤ bal →
      _run_paper_trade pair price signal qty lev tp sl pid (some bal) ts
        = ⟨some (bal - price * qty * TAKER_FEE_RATE),
           ts ++ [⟨pair, if signal = "BUY" then "buy" else "sell", price, qty, lev,
             some tp, some sl, price * qty * TAKER_FEE_RATE, pid⟩],
           false, none⟩)
    ∧ (bal < price * qty * TAKER_FEE_RATE →
      _run_paper_trade pair price signal qty lev tp sl pid (some bal) ts
        = ⟨some bal, ts, true, none⟩) := by
  constructor
  · intro hle
    simp only [_run_paper_trade]
    rw [if_neg (by linarith : ¬ bal ≤ 0),
      if_neg (by linarith : ¬ bal < price * qty * TAKER_FEE_RATE)]
  · intro hlt
    simp only [_run_paper_trade]
    rw [if_neg (by linarith : ¬ bal ≤ 0), if_pos hlt]

/-- Support for C3: the witness instantiation of `run_paper_trade_cases`. -/
theorem run_paper_trade_cases_witness :
    _run_paper_trade "B-BTC_USDT" 100 "BUY" 1 5 102 99 "P4" (some 1000) []
      = ⟨some (1000 - 100 * 1 * TAKER_FEE_RATE),
         [⟨"B-BTC_USDT", "buy", 100, 1, 5, some 102, some 99,
           100 * 1 * TAKER_FEE_RATE, "P4"⟩],
         false, none⟩ := by
  have h := (run_paper_trade_cases "B-BTC_USDT" 100 "BUY" 1 5 102 99 "P4" 1000 []
    (by norm_num)).1 (by norm_num [TAKER_FEE_RATE])
  simpa using h

/-- A candle already closed in the buffer (timestamp 1). -/
def closedCandle : Candle := ⟨100, 101, 99, 100, 5, 1, true⟩

/-- A later update reusing timestamp 1 with different prices. -/
def updSameTs : Candle := ⟨100, 105, 99, 104, 6, 1, false⟩

/-- A later update with a fresh timestamp 2. -/
def freshCandle : Candle := ⟨104, 106, 103, 105, 7, 2, false⟩

/-- C9 counterexample: a buffer update whose timestamp equals that of the last
candle overwrites it in place even though that candle had `is_closed = true`
— the closed candle is mutated, not preserved by appending a new one. -/
theorem c9_closed_candle_overwritten :
    closedCandle.is_closed = true
    ∧ _update_candle [closedCandle] updSameTs = [updSameTs]
    ∧ updSameTs ≠ closedCandle
    ∧ closedCandle ∉ _update_candle [closedCandle] updSameTs := by
  have h : _update_candle [closedCandle] updSameTs = [updSameTs] := by
    norm_num [_update_candle, lastTimestampMatches, closedCandle, updSameTs]
  refine ⟨rfl, h, ?_, ?_⟩
  · simp [closedCandle, updSameTs]
  · rw [h]
    simp [closedCandle, updSameTs]

/-- C9 (amended).  The buffer never exceeds `BUFFER_SIZE` (oldest evicted on
overflow); an incoming update overwrites the last buffered candle exactly
when it carries the same timestamp, regardless of `is_closed`; with a fresh
timestamp the update is appended, every candle except possibly the evicted
oldest survives unchanged, so closed candles are only ever mutated by
same-timestamp updates. -/
theorem c9_buffer_bound_and_append (buf : List Candle) (c : Candle) :
    (buf.length ≤ BUFFER_SIZE → (_update_candle buf c).length ≤ BUFFER_SIZE)
    ∧ (lastTimestampMatches buf c = true → _update_candle buf c = buf.dropLast ++ [c])
    ∧ (lastTimestampMatches buf c = false →
        (_update_candle buf c =
          if BUFFER_SIZE < buf.length + 1 then (buf ++ [c]).tail else buf ++ [c])
        ∧ (∀ x ∈ buf.tail, x ∈ _update_candle buf c)
        ∧ c ∈ _update_candle buf c) := by
  by_cases hm : lastTimestampMatches buf c
  · refine ⟨?_, ?_, ?_⟩
    · intro hb
      simp only [_update_candle, hm, if_true]
      simp only [List.length_append, List.length_dropLast, List.length_cons,
        List.length_nil, BUFFER_SIZE] at hb ⊢
      omega
    · intro _
      simp [_update_candle, hm]
    · intro hfalse
      rw [hm] at hfalse
      exact absurd hfalse (by simp)
  · rw [Bool.not_eq_true] at hm
    have hupd : _update_candle buf c =
        if BUFFER_SIZE < buf.length + 1 then (buf ++ [c]).tail else buf ++ [c] := by
      simp only [_update_candle, hm, Bool.false_eq_true, if_false,
        List.length_append, List.length_cons, List.length_nil]
    refine ⟨?_, ?_, ?_⟩
    · intro hb
      rw [hupd]
      split
      · simp only [List.length_tail, List.length_append, List.length_cons,
          List.length_nil]
        omega
      · rename_i hno
        simp only [List.length_append, List.length_cons, List.length_nil]
        omega
    · intro htrue
      rw [htrue] at hm
      exact absurd hm (by simp)
    · intro _
      refine ⟨hupd, ?_, ?_⟩
      · intro x hx
        rw [hupd]
        split
        · cases buf with
          | nil => simp at hx
          | cons a l =>
            simp only [List.cons_append, List.tail_cons]
            simp only [List.tail_cons] at hx
            exact List.mem_append_left _ hx
        · exact List.mem_append_left _ (List.mem_of_mem_tail hx)
      · rw [hupd]
        split
        · rename_i hgt
          cases buf with
          | nil => simp [BUFFER_SIZE] at hgt
          | cons a l =>
            simp only [List.cons_append, List.tail_cons]
            exact List.mem_append_right _ (by simp)
        · exact List.mem_append_right _ (by simp)

/-- Witness for C9: adding `freshCandle` (new timestamp) to a buffer holding
only `closedCandle` appends it; the closed candle is preserved and the bound
holds. -/
theorem c9_witness :
    _update_candle [closedCandle] freshCandle = [closedCandle, freshCandle]
    ∧ (_update_candle [closedCandle] freshCandle).length ≤ BUFFER_SIZE := by
  have hm : lastTimestampMatches [closedCandle] freshCandle = false := by
    norm_num [lastTimestampMatches, closedCandle, freshCandle]
  have h := c9_buffer_bound_and_append [closedCandle] freshCandle
  have h1 := (h.2.2 hm).1
  have h2 := h.1 (by norm_num [BUFFER_SIZE])
  constructor
  · rw [h1]
    norm_num [BUFFER_SIZE]
  · exact h2

/-- A registry with `simple_ema` registered and no active strategy yet. -/
def managerNoActive : StrategyManager := ⟨[("simple_ema", simple_ema)], none, none⟩

/-- C4 counterexample: with no active strategy, `calculate_tp_sl` on the
registry does not fail — it returns the plain tuple `(0.0, 0.0)`, which is
exactly what an activated strategy returns at entry price `0`; the no-active
condition is therefore a silently defaulted result, not an error surfaced to
the caller (`evaluate` likewise returns `None` after only logging a warning). -/
theorem c4_no_active_is_silently_defaulted :
    managerNoActive.active_strategy = none
    ∧ managerNoActive.calculate_tp_sl 100 .LONG = (0, 0)
    ∧ (managerNoActive.set_active_strategy "simple_ema").2.calculate_tp_sl 0 .LONG = (0, 0)
    ∧ managerNoActive.evaluate [] = none := by
  refine ⟨rfl, rfl, ?_, rfl⟩
  have hset : (managerNoActive.set_active_strategy "simple_ema").2.active_strategy
      = some simple_ema := by
    simp [StrategyManager.set_active_strategy, managerNoActive, List.lookup]
  simp only [StrategyManager.calculate_tp_sl, hset]
  norm_num [simple_ema, SimpleEMAStrategy.calculate_tp_sl, SimpleEMAStrategy.tp_pct,
    SimpleEMAStrategy.sl_pct, pyRound, pyRoundInt]

/-- C4 (amended).  `set_active_strategy` with an unregistered name returns
`False` and leaves the whole registry state unchanged; with a registered name
it returns `True` and atomically replaces the active strategy and its name so
that subsequent `evaluate`/`calculate_tp_sl` delegate to the new strategy;
with no active strategy set, `evaluate` returns the `None` sentinel and
`calculate_tp_sl` returns the defaulted tuple `(0.0, 0.0)` (each after
logging a warning) — neither raises an error to the caller. -/
theorem c4_registry_contract (m : StrategyManager) (name : String) :
    (m.strategies.lookup name = none → m.set_active_strategy name = (false, m))
    ∧ (∀ s, m.strategies.lookup name = some s →
        (m.set_active_strategy name).1 = true
        ∧ (m.set_active_strategy name).2.active_strategy = some s
        ∧ (m.set_active_strategy name).2.active_strategy_name = some name
        ∧ (m.set_active_strategy name).2.strategies = m.strategies
        ∧ (∀ candles, (m.set_active_strategy name).2.evaluate candles
            = some (s.evaluate candles))
        ∧ (∀ e pt, (m.set_active_strategy name).2.calculate_tp_sl e pt
            = s.calculate_tp_sl e pt))
    ∧ (m.active_strategy = none →
        (∀ candles, m.evaluate candles = none)
        ∧ (∀ e pt, m.calculate_tp_sl e pt = (0, 0))) := by
  refine ⟨?_, ?_, ?_⟩
  · intro h
    simp [StrategyManager.set_active_strategy, h]
  · intro s h
    simp [StrategyManager.set_active_strategy, h, StrategyManager.evaluate,
      StrategyManager.calculate_tp_sl]
  · intro h
    constructor
    · intro candles
      simp [StrategyManager.evaluate, h]
    · intro e pt
      simp [StrategyManager.calculate_tp_sl, h]

/-- Witness for C4: activating the registered `simple_ema` succeeds and the
registry afterwards delegates `calculate_tp_sl` to it; the still-inactive
registry returns the sentinels. -/
theorem c4_witness :
    (managerNoActive.set_active_strategy "simple_ema").1 = true
    ∧ (managerNoActive.set_active_strategy "simple_ema").2.calculate_tp_sl 100 .LONG
        = simple_ema.calculate_tp_sl 100 .LONG
    ∧ managerNoActive.evaluate [closedCandle] = none
    ∧ managerNoActive.calculate_tp_sl 7 .SHORT = (0, 0) := by
  have hlookup : managerNoActive.strategies.lookup "simple_ema" = some simple_ema := by
    simp [managerNoActive, List.lookup]
  have h := c4_registry_contract managerNoActive "simple_ema"
  have h2 := h.2.1 simple_ema hlookup
  have h3 := h.2.2 (rfl : managerNoActive.active_strategy = none)
  exact ⟨h2.1, h2.2.2.2.2.2 100 .LONG, h3.1 [closedCandle], h3.2 7 .SHORT⟩

/-- Characterization of Python truthiness on optional floats. -/
theorem truthy_eq_true {x : Option ℚ} : truthy x = true ↔ ∃ v, x = some v ∧ v ≠ 0 := by
  cases x <;> simp [truthy]

theorem emaScore_nonneg (ind : Ind) (pt : PositionType) : 0 ≤ emaScore ind pt := by
  cases pt <;> simp only [emaScore]
  all_goals split_ifs
  all_goals norm_num

theorem macdScore_nonneg (ind : Ind) (pt : PositionType) : 0 ≤ macdScore ind pt := by
  cases pt <;> simp only [macdScore]
  all_goals split_ifs
  all_goals norm_num

theorem rsiScore_nonneg (ind : Ind) (pt : PositionType) : 0 ≤ rsiScore ind pt := by
  cases pt <;>
    simp only [rsiScore, StrategyCfg.rsi_oversold, StrategyCfg.rsi_overbought]
  all_goals split_ifs
  all_goals first
    | (norm_num; done)
    | exact le_max_left 0 _
    | (refine div_nonneg ?_ (by norm_num); nlinarith)

theorem volumeScore_nonneg (vr : ℚ) : 0 ≤ volumeScore vr := by
  simp only [volumeScore, StrategyCfg.min_volume_ratio]
  split_ifs
  all_goals first
    | (norm_num; done)
    | exact mul_nonneg (by norm_num) (div_nonneg (by linarith) (by norm_num))

theorem trendScore_nonneg (ind : Ind)
    (hlc : ∀ cl, ind.last_close = some cl → 0 ≤ cl) : 0 ≤ trendScore ind := by
  have hgd : 0 ≤ ind.last_close.getD 0 := by
    cases hop : ind.last_close with
    | none => simp
    | some cl => simpa [hop] using hlc cl hop
  have key : ∀ sep c : ℚ, 0 ≤ sep → 0 ≤ c → 0 ≤ 10 * min 1 (sep / c) := by
    intro sep c hs hc
    apply mul_nonneg (by norm_num)
    exact le_min (by norm_num) (div_nonneg hs hc)
  simp only [trendScore]
  split_ifs
  all_goals first
    | (norm_num; done)
    | exact key _ _ (abs_nonneg _) (mul_nonneg hgd (by norm_num))
    | exact key _ _ (by norm_num) (mul_nonneg hgd (by norm_num))

/-- C6 (amended).  For every indicator snapshot whose last-close value (a
price) is nonnegative when present, the confidence score is in `[0, 100]`;
and the score is `0.0` whenever the current fast EMA or the current slow EMA
is falsy (missing or zero).  A missing previous EMA does not short-circuit
the score to `0.0` — it only forfeits the fresh-crossover bonus. -/
theorem c6_confidence_bounds (ind : Ind) (pt : PositionType)
    (hlc : ∀ cl, ind.last_close = some cl → 0 ≤ cl) :
    0 ≤ calculate_confidence ind pt ∧ calculate_confidence ind pt ≤ 100
    ∧ ((truthy ind.ema_fast = false ∨ truthy ind.ema_slow = false) →
        calculate_confidence ind pt = 0) := by
  unfold calculate_confidence
  split
  · exact ⟨le_refl 0, by norm_num, fun _ => rfl⟩
  · rename_i h
    push_neg at h
    refine ⟨?_, min_le_left _ _, ?_⟩
    · apply le_min (by norm_num)
      apply pyRound_nonneg
      have h1 := emaScore_nonneg ind pt
      have h2 := macdScore_nonneg ind pt
      have h3 := rsiScore_nonneg ind pt
      have h4 := volumeScore_nonneg (ind.volume_ratio.getD 0)
      have h5 := trendScore_nonneg ind hlc
      linarith
    · intro hor
      rcases hor with h1 | h1
      · rw [h1] at h
        simp at h
      · rw [h1] at h
        simp at h

/-- A snapshot whose previous EMA values are missing but whose current EMAs,
RSI and last close are present. -/
def indPrevNone : Ind :=
  ⟨some 2, some 1, none, none, some 50, some 0, some 0, some 0, some 0, some 100⟩

/-- A snapshot with a negative last close (EMAs present, previous missing). -/
def indNegClose : Ind :=
  ⟨some 1, some 2, none, none, some 50, some 0, some 0, some 0, some 0, some (-(1/100))⟩

/-- C6 counterexample: with both previous EMA values `None` the scorer does
not short-circuit to `0.0` — it returns `45.0`; and for a snapshot with a
negative last close the score is `-49990.0`, far below the claimed `[0,100]`
interval.  The claim fails on both conjuncts as stated. -/
theorem c6_counterexample :
    indPrevNone.ema_fast_prev = none
    ∧ calculate_confidence indPrevNone .LONG = 45
    ∧ calculate_confidence indNegClose .LONG = -49990 := by
  refine ⟨rfl, ?_, ?_⟩
  · norm_num [calculate_confidence, emaScore, macdScore, rsiScore, volumeScore,
      trendScore, truthy, indPrevNone, StrategyCfg.rsi_oversold,
      StrategyCfg.rsi_overbought, StrategyCfg.min_volume_ratio, pyRound,
      pyRoundInt, min_def, abs_of_nonpos, abs_of_nonneg]
  · norm_num [calculate_confidence, emaScore, macdScore, rsiScore, volumeScore,
      trendScore, truthy, indNegClose, StrategyCfg.rsi_oversold,
      StrategyCfg.rsi_overbought, StrategyCfg.min_volume_ratio, pyRound,
      pyRoundInt, min_def, abs_of_nonpos, abs_of_nonneg]

/-- Witness for C6: the amended bounds theorem applied at `indPrevNone`
(whose last close is `100 ≥ 0`), direction long. -/
theorem c6_witness :
    0 ≤ calculate_confidence indPrevNone .LONG
    ∧ calculate_confidence indPrevNone .LONG ≤ 100 :=
  have h := c6_confidence_bounds indPrevNone .LONG
    (by intro cl hcl; simp only [indPrevNone] at hcl; injection hcl with h0; linarith)
  ⟨h.1, h.2.1⟩

/-- C7 (amended).  The volume sub-score is the full weight 15 for every ratio
at or above 1.0 and zero below the configured minimum ratio 0.8; for ratios
in `[0.8, 1.0)` it is `15 * (ratio / 0.8)` — linear partial credit that is at
least 15 and up to 18.75, so it strictly exceeds the nominal full weight of
15 on the whole open interval `(0.8, 1.0)`. -/
theorem c7_volume_score (vr : ℚ) :
    (1 ≤ vr → volumeScore vr = 15)
    ∧ (vr < StrategyCfg.min_volume_ratio → volumeScore vr = 0)
    ∧ (StrategyCfg.min_volume_ratio ≤ vr → vr < 1 →
        volumeScore vr = 15 * (vr / StrategyCfg.min_volume_ratio)
        ∧ 15 ≤ volumeScore vr ∧ volumeScore vr < 75/4) := by
  refine ⟨?_, ?_, ?_⟩
  · intro h
    simp [volumeScore, h]
  · intro h
    rw [volumeScore, if_neg (by simp only [StrategyCfg.min_volume_ratio] at h; intro hc; linarith),
      if_neg (by exact not_le.mpr h)]
  · intro h1 h2
    have hv : volumeScore vr = 15 * (vr / StrategyCfg.min_volume_ratio) := by
      rw [volumeScore, if_neg (by exact not_le.mpr h2), if_pos h1]
    refine ⟨hv, ?_, ?_⟩
    · rw [hv]
      simp only [StrategyCfg.min_volume_ratio] at h1 ⊢
      rw [div_eq_mul_inv]
      nlinarith
    · rw [hv]
      simp only [StrategyCfg.min_volume_ratio]
      rw [div_eq_mul_inv]
      nlinarith

/-- A snapshot whose volume ratio is 0.9 — between the minimum ratio 0.8 and
the volume moving average. -/
def indVol : Ind :=
  ⟨some 2, some 1, none, none, some 50, some 0, some 0, some 0, some (9/10), some 100⟩

/-- C7 counterexample: at volume ratio 0.9 the sub-score is
`15 * (0.9/0.8) = 16.875 > 15`, exceeding the full weight; fed through the
whole scorer it contributes that excess (total `61.9`). -/
theorem c7_counterexample :
    volumeScore (9/10) = 135/8
    ∧ ¬ volumeScore (9/10) ≤ 15
    ∧ calculate_confidence indVol .LONG = 619/10 := by
  refine ⟨?_, ?_, ?_⟩
  · norm_num [volumeScore, StrategyCfg.min_volume_ratio]
  · norm_num [volumeScore, StrategyCfg.min_volume_ratio]
  · norm_num [calculate_confidence, emaScore, macdScore, rsiScore, volumeScore,
      trendScore, truthy, indVol, StrategyCfg.rsi_oversold,
      StrategyCfg.rsi_overbought, StrategyCfg.min_volume_ratio, pyRound,
      pyRoundInt, min_def, abs_of_nonpos, abs_of_nonneg]

/-- Witness for C7: the amended volume-score theorem instantiated at
ratio 0.9, discharging `0.8 ≤ 0.9 < 1`. -/
theorem c7_witness :
    volumeScore (9/10) = 15 * ((9/10) / StrategyCfg.min_volume_ratio)
    ∧ 15 ≤ volumeScore (9/10) :=
  have h := (c7_volume_score (9/10)).2.2
    (by norm_num [StrategyCfg.min_volume_ratio]) (by norm_num)
  ⟨h.1, h.2.1⟩

theorem rsiDeltas_length (closes : List ℚ) :
    (rsiDeltas closes).length = closes.length - 1 := by
  simp only [rsiDeltas, List.length_zipWith, List.length_tail]
  omega

theorem rsiLastDeltas_length (closes : List ℚ) (period : ℕ)
    (h : period + 1 ≤ closes.length) :
    (rsiLastDeltas closes period).length = period := by
  simp only [rsiLastDeltas, List.length_drop, rsiDeltas_length]
  omega

theorem rsiAvgGain_nonneg (closes : List ℚ) (period : ℕ) :
    0 ≤ rsiAvgGain closes period := by
  unfold rsiAvgGain
  apply div_nonneg _ (by positivity)
  apply List.sum_nonneg
  intro x hx
  obtain ⟨d, hd, rfl⟩ := List.mem_map.mp hx
  split_ifs with h
  · linarith
  · exact le_refl 0

theorem rsiAvgLoss_nonneg (closes : List ℚ) (period : ℕ) :
    0 ≤ rsiAvgLoss closes period := by
  unfold rsiAvgLoss
  apply div_nonneg _ (by positivity)
  apply List.sum_nonneg
  intro x hx
  obtain ⟨d, hd, rfl⟩ := List.mem_map.mp hx
  split_ifs with h
  · linarith
  · exact le_refl 0

/-- C8.  For every close series and period ≥ 1, `_rsi` stays in `[0, 100]`;
it is `50.0` on insufficient data, `100.0` when the average loss over the
last `period` deltas is zero (in particular for an all-gains window), `0.0`
for an all-losses window, and otherwise `100 - 100/(1 + RS)` rounded to two
decimals with `RS` the gain/loss ratio. -/
theorem c8_rsi_spec (closes : List ℚ) (period : ℕ) (hp : 1 ≤ period) :
    (0 ≤ _rsi closes period ∧ _rsi closes period ≤ 100)
    ∧ (closes.length < period + 1 → _rsi closes period = 50)
    ∧ (period + 1 ≤ closes.length →
        (rsiAvgLoss closes period = 0 → _rsi closes period = 100)
        ∧ ((∀ d ∈ rsiLastDeltas closes period, 0 < d) → _rsi closes period = 100)
        ∧ ((∀ d ∈ rsiLastDeltas closes period, d < 0) → _rsi closes period = 0)
        ∧ (rsiAvgLoss closes period ≠ 0 →
            _rsi closes period =
              pyRound (100 - 100 / (1 + rsiAvgGain closes period / rsiAvgLoss closes period)) 2)) := by
  have hperiodQ : (0 : ℚ) < (period : ℚ) := by exact_mod_cast hp
  have hAG : (∀ d ∈ rsiLastDeltas closes period, 0 < d) →
      rsiAvgLoss closes period = 0 := by
    intro h
    unfold rsiAvgLoss
    rw [List.sum_eq_zero, zero_div]
    intro x hx
    obtain ⟨d, hd, rfl⟩ := List.mem_map.mp hx
    rw [if_neg (by linarith [h d hd])]
  have hALgain : (∀ d ∈ rsiLastDeltas closes period, d < 0) →
      rsiAvgGain closes period = 0 := by
    intro h
    unfold rsiAvgGain
    rw [List.sum_eq_zero, zero_div]
    intro x hx
    obtain ⟨d, hd, rfl⟩ := List.mem_map.mp hx
    rw [if_neg (by linarith [h d hd])]
  by_cases hlen : closes.length < period + 1
  · have hval : _rsi closes period = 50 := by
      simp only [_rsi]
      rw [if_pos hlen]
    rw [hval]
    exact ⟨⟨by norm_num, by norm_num⟩, fun _ => rfl, fun hge => absurd hge (by omega)⟩
  · have hge : period + 1 ≤ closes.length := by omega
    have hALloss : (∀ d ∈ rsiLastDeltas closes period, d < 0) →
        0 < rsiAvgLoss closes period := by
      intro h
      unfold rsiAvgLoss
      apply div_pos _ hperiodQ
      apply List.sum_pos
      · intro x hx
        obtain ⟨d, hd, rfl⟩ := List.mem_map.mp hx
        rw [if_pos (h d hd)]
        linarith [h d hd]
      · intro hnil
        have hlenl := rsiLastDeltas_length closes period hge
        have := congrArg List.length hnil
        simp only [List.length_map, List.length_nil] at this
        omega
    have hval : _rsi closes period =
        (if rsiAvgLoss closes period = 0 then (100 : ℚ)
         else pyRound (100 - 100 / (1 + rsiAvgGain closes period / rsiAvgLoss closes period)) 2) := by
      simp only [_rsi]
      rw [if_neg hlen]
    by_cases hzero : rsiAvgLoss closes period = 0
    · rw [hval, if_pos hzero]
      refine ⟨⟨by norm_num, by norm_num⟩, fun h => absurd h (by omega), fun _ => ?_⟩
      exact ⟨fun _ => rfl, fun _ => rfl,
        fun h => absurd hzero (hALloss h).ne',
        fun h => absurd hzero h⟩
    · rw [hval, if_neg hzero]
      have hl : 0 < rsiAvgLoss closes period :=
        lt_of_le_of_ne (rsiAvgLoss_nonneg closes period) (Ne.symm hzero)
      have hrs : 0 ≤ rsiAvgGain closes period / rsiAvgLoss closes period :=
        div_nonneg (rsiAvgGain_nonneg closes period) hl.le
      have hfrac_pos : 0 < (100 : ℚ) / (1 + rsiAvgGain closes period / rsiAvgLoss closes period) := by
        apply div_pos (by norm_num)
        linarith
      have hfrac_le : (100 : ℚ) / (1 + rsiAvgGain closes period / rsiAvgLoss closes period) ≤ 100 :=
        div_le_self (by norm_num) (by linarith)
      have hlb : (0 : ℚ) ≤ 100 - 100 / (1 + rsiAvgGain closes period / rsiAvgLoss closes period) := by
        linarith
      have hub : (100 : ℚ) - 100 / (1 + rsiAvgGain closes period / rsiAvgLoss closes period)
          ≤ ((100 : ℤ) : ℚ) := by
        push_cast
        linarith
      refine ⟨⟨pyRound_nonneg hlb, ?_⟩, fun h => absurd h (by omega), fun _ => ?_⟩
      · have := pyRound_le (n := 2) hub
        simpa using this
      · refine ⟨fun h => absurd h hzero, fun h => absurd (hAG h) hzero, fun h => ?_, fun _ => rfl⟩
        rw [hALgain h, zero_div]
        norm_num
        simpa using pyRound_intCast 0 2

/-- Witness for C8: the bounds of `c8_rsi_spec` at the concrete series
`[1, 2, 1]` with period 1 (an all-losses window over the last delta). -/
theorem c8_witness : 0 ≤ _rsi [1, 2, 1] 1 ∧ _rsi [1, 2, 1] 1 ≤ 100 :=
  (c8_rsi_spec [1, 2, 1] 1 (le_refl 1)).1

theorem lookup_map_keyed (h : String → CVal → CVal) (d : List (String × CVal)) (k : String) :
    (d.map (fun kv => (kv.1, h kv.1 kv.2))).lookup k = (d.lookup k).map (h k) := by
  induction d with
  | nil => rfl
  | cons a tl ih =>
    simp only [List.map_cons, List.lookup]
    cases hka : k == a.1 with
    | true =>
      have : k = a.1 := by simpa using hka
      simp [this]
    | false => simpa [hka] using ih

theorem lookup_append_or (l₁ l₂ : List (String × CVal)) (k : String) :
    (l₁ ++ l₂).lookup k = Option.or (l₁.lookup k) (l₂.lookup k) := by
  induction l₁ with
  | nil => simp
  | cons a tl ih =>
    simp only [List.cons_append, List.lookup]
    cases hka : k == a.1 with
    | true => rfl
    | false => simpa [hka] using ih

theorem lookup_filter_isNone (d u : List (String × CVal)) (k : String)
    (hd : d.lookup k = none) :
    (u.filter (fun kv => (d.lookup kv.1).isNone)).lookup k = u.lookup k := by
  induction u with
  | nil => rfl
  | cons a tl ih =>
    by_cases hka : k = a.1
    · subst hka
      rw [List.filter_cons, if_pos (by simp [hd])]
      simp [List.lookup]
    · have hbeq : (k == a.1) = false := by simpa using hka
      rw [List.filter_cons]
      split
      · simpa [List.lookup, hbeq] using ih
      · simpa [List.lookup, hbeq] using ih

/-- Merge semantics of Python `dict.update`: a key takes its value from the
update when present there and keeps the old value otherwise. -/
theorem lookup_dictUpdate (d u : List (String × CVal)) (k : String) :
    (dictUpdate d u).lookup k = Option.or (u.lookup k) (d.lookup k) := by
  have hmapfn : (fun kv : String × CVal =>
      match u.lookup kv.1 with | some v => (kv.1, v) | none => kv)
      = fun kv : String × CVal => (kv.1, (u.lookup kv.1).getD kv.2) := by
    funext kv
    cases h : u.lookup kv.1 <;> simp [h]
  unfold dictUpdate
  rw [hmapfn, lookup_append_or, lookup_map_keyed (fun key v => (u.lookup key).getD v)]
  cases hd : d.lookup k with
  | none =>
    rw [lookup_filter_isNone d u k hd]
    cases hu : u.lookup k <;> simp
  | some w =>
    cases hu : u.lookup k <;> simp [hu]

/-- C10.  `update_config` mutates the class-level `CONFIG` dict shared by all
instances of the strategy class: after the update, every live instance and
every freshly constructed instance (as built by
`StrategyManager.set_active_strategy` on re-activation) reads the merged
dictionary, in which keys of the update override the old values and all other
keys are preserved. -/
theorem c10_update_config_shared (w : SimpleEMAClassState) (u : List (String × CVal))
    (k : String) (i j : SimpleEMAInstance) :
    SimpleEMAInstance.get_config i (update_config w u) = dictUpdate w.CONFIG u
    ∧ SimpleEMAInstance.get_config (constructSimpleEMA (update_config w u)) (update_config w u)
        = SimpleEMAInstance.get_config i (update_config w u)
    ∧ SimpleEMAInstance.get_config i (update_config w u)
        = SimpleEMAInstance.get_config j (update_config w u)
    ∧ (update_config w u).CONFIG.lookup k = Option.or (u.lookup k) (w.CONFIG.lookup k) :=
  ⟨rfl, rfl, rfl, lookup_dictUpdate w.CONFIG u k⟩

theorem getLastD_eq_getD_length (l : List ℚ) :
    l.getLastD 0 = l.getD (l.length - 1) 0 := by
  rw [List.getLastD_eq_getLast?, List.getLast?_eq_getElem?, List.getD_eq_getElem?_getD]

theorem range_map_getLastD (f : ℕ → ℚ) (n : ℕ) (hn : n ≠ 0) :
    ((List.range n).map f).getLastD 0 = f (n - 1) := by
  obtain ⟨m, rfl⟩ := Nat.exists_eq_succ_of_ne_zero hn
  rw [List.range_succ, List.map_append]
  simp

theorem range_map_getD_sub (l1 l2 : List ℚ) (h : l2.length ≤ l1.length) :
    (List.range l2.length).map (fun i => l1.getD i 0 - l2.getD i 0)
      = List.zipWith (fun a b => a - b) l1 l2 := by
  apply List.ext_getElem
  · simp only [List.length_map, List.length_range, List.length_zipWith]
    omega
  · intro i h1 h2
    simp only [List.getElem_map, List.getElem_range, List.getElem_zipWith]
    have hi2 : i < l2.length := by simpa using h1
    have hi1 : i < l1.length := lt_of_lt_of_le hi2 h
    rw [List.getD_eq_getElem l1 0 hi1, List.getD_eq_getElem l2 0 hi2]

theorem ema_fast_length (closes : List ℚ) (h : 35 ≤ closes.length) :
    (_ema closes StrategyCfg.macd_fast).length = closes.length - 11 := by
  rw [_ema_length closes StrategyCfg.macd_fast
    (by simp only [StrategyCfg.macd_fast]; omega)]
  simp only [StrategyCfg.macd_fast]
  omega

theorem ema_slow_length (closes : List ℚ) (h : 35 ≤ closes.length) :
    (_ema closes StrategyCfg.macd_slow).length = closes.length - 25 := by
  rw [_ema_length closes StrategyCfg.macd_slow
    (by simp only [StrategyCfg.macd_slow]; omega)]
  simp only [StrategyCfg.macd_slow]
  omega

theorem macd_line_length (closes : List ℚ) (h : 35 ≤ closes.length) :
    (macd_line closes).length = closes.length - 25 := by
  simp only [macd_line, List.length_map, List.length_range]
  exact ema_slow_length closes h

/-- On a window of at least 35 closes, `_macd` takes its non-degenerate path:
its fields are the rounded current MACD line value, the rounded current
signal-line value, and their rounded difference. -/
theorem _macd_eq (closes : List ℚ) (h : 35 ≤ closes.length) :
    _macd closes =
      ⟨pyRound ((macd_line closes).getLastD 0) 4,
       pyRound ((_ema (macd_line closes) StrategyCfg.macd_signal).getLastD 0) 4,
       pyRound ((macd_line closes).getLastD 0
         - (_ema (macd_line closes) StrategyCfg.macd_signal).getLastD 0) 4⟩ := by
  have hF := ema_fast_length closes h
  have hS := ema_slow_length closes h
  have hline := macd_line_length closes h
  have hsigLen : (_ema (macd_line closes) StrategyCfg.macd_signal).length
      = closes.length - 33 := by
    rw [_ema_length (macd_line closes) StrategyCfg.macd_signal
      (by simp only [StrategyCfg.macd_signal]; omega)]
    simp only [StrategyCfg.macd_signal]
    omega
  simp only [_macd]
  rw [if_neg (by simp only [StrategyCfg.macd_slow, StrategyCfg.macd_signal]; omega),
    if_neg (by rw [hF, hS]; omega),
    if_neg (by
      rw [List.isEmpty_iff]
      intro hemb
      have := congrArg List.length hemb
      rw [hsigLen] at this
      simp only [List.length_nil] at this
      omega)]

/-- C5 (amended).  `_macd` returns the all-zero struct when the window is
shorter than `macd_slow + macd_signal = 35`; otherwise its MACD value is the
rounded last entry of the internal MACD line, which pairs the fast EMA series
HEAD-aligned over the slow series' length with the slow EMA series — i.e. it
equals `EMA(closes,12)[len-26] - EMA(closes,26)[-1]`, where `len-26` is
strictly below the fast series' last index `len-12`, not the tail-aligned
current fast EMA value the claim states; signal is the rounded last value of
the EMA of that MACD line and histogram their rounded difference; the
function is total. -/
theorem c5_macd_alignment (closes : List ℚ) :
    (closes.length < 35 → _macd closes = ⟨0, 0, 0⟩)
    ∧ (35 ≤ closes.length →
        _macd closes =
          ⟨pyRound ((macd_line closes).getLastD 0) 4,
           pyRound ((_ema (macd_line closes) StrategyCfg.macd_signal).getLastD 0) 4,
           pyRound ((macd_line closes).getLastD 0
             - (_ema (macd_line closes) StrategyCfg.macd_signal).getLastD 0) 4⟩
        ∧ (macd_line closes).getLastD 0 =
            (_ema closes StrategyCfg.macd_fast).getD (closes.length - 26) 0
              - (_ema closes StrategyCfg.macd_slow).getLastD 0
        ∧ (_ema closes StrategyCfg.macd_fast).length - 1 = closes.length - 12
        ∧ closes.length - 26 < closes.length - 12) := by
  constructor
  · intro hshort
    simp only [_macd]
    rw [if_pos (by simp only [StrategyCfg.macd_slow, StrategyCfg.macd_signal]; omega)]
  · intro h
    have hF := ema_fast_length closes h
    have hS := ema_slow_length closes h
    refine ⟨_macd_eq closes h, ?_, by rw [hF]; omega, by omega⟩
    have hidx : (_ema closes StrategyCfg.macd_slow).length - 1 = closes.length - 26 := by
      rw [hS]
      omega
    calc (macd_line closes).getLastD 0
        = (_ema closes StrategyCfg.macd_fast).getD
            ((_ema closes StrategyCfg.macd_slow).length - 1) 0
          - (_ema closes StrategyCfg.macd_slow).getD
            ((_ema closes StrategyCfg.macd_slow).length - 1) 0 := by
          simp only [macd_line]
          rw [range_map_getLastD _ _ (by rw [hS]; omega)]
      _ = (_ema closes StrategyCfg.macd_fast).getD (closes.length - 26) 0
          - (_ema closes StrategyCfg.macd_slow).getLastD 0 := by
          rw [hidx, getLastD_eq_getD_length, hidx]

/-- A 35-close window: 34 flat closes at 0 followed by a close at 1. -/
def closesM : List ℚ :=
  [0, 0, 0, 0, 0, 0, 0, 0, 0, 0, 0, 0, 0, 0, 0, 0, 0, 0,
   0, 0, 0, 0, 0, 0, 0, 0, 0, 0, 0, 0, 0, 0, 0, 0, 1]

theorem closesM_length : closesM.length = 35 := by
  simp [closesM]

theorem ema_fast_closesM :
    _ema closesM StrategyCfg.macd_fast =
      [0, 0, 0, 0, 0, 0, 0, 0, 0, 0, 0, 0, 0, 0, 0, 0, 0, 0, 0, 0, 0, 0, 0, 2/13] := by
  norm_num [_ema, emaRec, closesM, StrategyCfg.macd_fast]

theorem ema_slow_closesM :
    _ema closesM StrategyCfg.macd_slow =
      [0, 0, 0, 0, 0, 0, 0, 0, 0, 2/27] := by
  norm_num [_ema, emaRec, closesM, StrategyCfg.macd_slow]

theorem macd_line_closesM :
    macd_line closesM = [0, 0, 0, 0, 0, 0, 0, 0, 0, -(2/27)] := by
  simp only [macd_line]
  rw [range_map_getD_sub _ _ (by rw [ema_fast_closesM, ema_slow_closesM]; simp),
    ema_fast_closesM, ema_slow_closesM]
  norm_num [List.zipWith]

theorem signal_line_closesM :
    _ema (macd_line closesM) StrategyCfg.macd_signal = [0, -(2/135)] := by
  rw [macd_line_closesM]
  norm_num [_ema, emaRec, StrategyCfg.macd_signal]

/-- C5 counterexample: on `closesM` the returned MACD value is
`round(-2/27, 4) = -0.0741`, while the difference of the CURRENT (last)
fast and slow EMA values is `2/13 - 2/27 = 28/351 ≈ 0.0798` — the claim's
tail-aligned value differs from what `_macd` returns, both before and after
rounding. -/
theorem c5_counterexample :
    (_macd closesM).macd = -(741/10000)
    ∧ (_ema closesM StrategyCfg.macd_fast).getLastD 0
        - (_ema closesM StrategyCfg.macd_slow).getLastD 0 = 28/351
    ∧ pyRound ((_ema closesM StrategyCfg.macd_fast).getLastD 0
        - (_ema closesM StrategyCfg.macd_slow).getLastD 0) 4 = 798/10000
    ∧ (-(741/10000) : ℚ) ≠ 28/351
    ∧ (-(741/10000) : ℚ) ≠ 798/10000 := by
  have hlen : 35 ≤ closesM.length := by rw [closesM_length]
  have hdiff : (_ema closesM StrategyCfg.macd_fast).getLastD 0
      - (_ema closesM StrategyCfg.macd_slow).getLastD 0 = 28/351 := by
    rw [ema_fast_closesM, ema_slow_closesM]
    norm_num
  refine ⟨?_, hdiff, ?_, by norm_num, by norm_num⟩
  · have h1 : (_macd closesM).macd = pyRound ((macd_line closesM).getLastD 0) 4 := by
      rw [_macd_eq closesM hlen]
    rw [h1, macd_line_closesM]
    norm_num [pyRound, pyRoundInt]
  · rw [hdiff]
    norm_num [pyRound, pyRoundInt]

/-- Witness for C5: the amended theorem instantiated at `closesM`
(35 closes), exposing the head-aligned index `35 - 26 = 9` strictly below the
fast series' last index `35 - 12 = 23`. -/
theorem c5_witness :
    (_ema closesM StrategyCfg.macd_fast).length - 1 = closesM.length - 12
    ∧ closesM.length - 26 < closesM.length - 12
    ∧ (macd_line closesM).getLastD 0 =
        (_ema closesM StrategyCfg.macd_fast).getD (closesM.length - 26) 0
          - (_ema closesM StrategyCfg.macd_slow).getLastD 0 := by
  have h := (c5_macd_alignment closesM).2 (by rw [closesM_length])
  exact ⟨h.2.2.1, h.2.2.2, h.2.1⟩
